import Mathlib

/-!
Shallow embedding of the Typesense vector-store adapter
(`local_agno/vectordb/typesense/`): the schema builder (`index.py`), the
filter compiler and search executor (`search.py`), and the adapter facade
(`__init__.py`).  Python dictionaries are modelled as association lists with
CPython dict-display semantics (insertion order, in-place replacement on a
duplicate key); Python exceptions are modelled with `Except`; in-place
mutation of caller documents is modelled by returning the updated documents.
-/

/-- A Python value as it appears in engine payloads and hit records:
`None`, strings, numbers (the numeric representation is irrelevant to the
control flow under study, so numbers are carried as `Int`), arrays and
objects (dicts). -/
inductive Val where
  | null : Val
  | str : String → Val
  | int : Int → Val
  | arr : List Val → Val
  | obj : List (String × Val) → Val

/-- Python truthiness of a `Val` (`None`, `""`, `0`, `[]`, `\x7b\x7d` are falsy). -/
def Val.truthy : Val → Bool
  | Val.null => false
  | Val.str s => !(s == "")
  | Val.int n => !(n == 0)
  | Val.arr vs => !vs.isEmpty
  | Val.obj kvs => !kvs.isEmpty

/-- `d.get(k)` on a Python dict modelled as an association list with unique
keys: the first binding of `k`, if any. -/
def lookupKey (kvs : List (String × Val)) (k : String) : Option Val :=
  match kvs with
  | [] => none
  | (k₀, v) :: rest => if k₀ == k then some v else lookupKey rest k

/-- `d[k] = v` on a Python dict: replace in place if the key is present
(keeping its position), otherwise append. -/
def dictUpdate (d : List (String × Val)) (k : String) (v : Val) : List (String × Val) :=
  match d with
  | [] => [(k, v)]
  | (k₀, v₀) :: rest => if k₀ == k then (k₀, v) :: rest else (k₀, v₀) :: dictUpdate rest k v

/-- A Python dict display built from a sequence of key/value pairs
(later pairs override earlier ones, CPython semantics). -/
def pyDict (pairs : List (String × Val)) : List (String × Val) :=
  pairs.foldl (fun d kv => dictUpdate d kv.1 kv.2) []

/-- Last binding of `k` in a pair list (what a dict display ends up storing
for `k`). -/
def lookupKeyLast (kvs : List (String × Val)) (k : String) : Option Val :=
  match kvs with
  | [] => none
  | (k₀, v) :: rest =>
    match lookupKeyLast rest k with
    | some w => some w
    | none => if k₀ == k then some v else none

/-- The keys of `kvs` are pairwise distinct (true of any list obtained from a
Python dict). -/
def keysNodup (kvs : List (String × Val)) : Bool :=
  match kvs with
  | [] => true
  | (k₀, _) :: rest => (!(rest.any (fun p => p.1 == k₀))) && keysNodup rest

/-! ## Schema builder (`index.py`) -/

/-- `Distance` enum from `index.py`. -/
inductive Distance where
  | cosine : Distance
  | euclidean : Distance
  | dot_product : Distance

/-- `.value` of the string enum. -/
def Distance.value : Distance → String
  | Distance.cosine => "cosine"
  | Distance.euclidean => "euclidean"
  | Distance.dot_product => "dot_product"

/-- `HNSWConfig` dataclass from `index.py`. -/
structure HNSWConfig where
  max_elements : Nat
  m : Nat
  ef_construction : Nat
  ef : Nat

/-- The `hnsw_params` dict placed on the embedding field. -/
structure HnswParams where
  M : Nat
  ef_construction : Nat

/-- One entry of the schema's `fields` list.  Optional components are absent
keys of the Python dict. -/
structure SchemaField where
  name : String
  type : String
  num_dim : Option Nat
  vec_dist : Option String
  hnsw_params : Option HnswParams

/-- The collection schema dict produced by `create_schema`. -/
structure Schema where
  name : String
  enable_nested_fields : Bool
  fields : List SchemaField

/-- `create_schema` from `index.py`: the embedding field carries `num_dim`,
`vec_dist` and (when an HNSW config is supplied) `hnsw_params`; the field
list is the four baseline fields followed by `additional_fields` when that
argument is truthy. -/
def create_schema (name : String) (dimension : Nat) (distance : Distance)
    (hnsw_config : Option HNSWConfig) (additional_fields : Option (List SchemaField)) :
    Schema :=
  let embedding_field : SchemaField :=
    { name := "embedding"
      type := "float[]"
      num_dim := some dimension
      vec_dist := some distance.value
      hnsw_params :=
        match hnsw_config with
        | some c => some { M := c.m, ef_construction := c.ef_construction }
        | none => none }
  { name := name
    enable_nested_fields := true
    fields :=
      [ { name := "id", type := "string", num_dim := none, vec_dist := none, hnsw_params := none }
      , { name := "content", type := "string", num_dim := none, vec_dist := none, hnsw_params := none }
      , { name := "meta_data", type := "object", num_dim := none, vec_dist := none, hnsw_params := none }
      , embedding_field ]
      ++ (match additional_fields with
          | some fs => fs
          | none => []) }

/-! ## Filter compiler (`search.py`) -/

/-- A Python scalar filter value; `toStr` is Python `str()` on it. -/
inductive PyScalar where
  | s : String → PyScalar
  | i : Int → PyScalar

/-- Python `str()` of a scalar. -/
def PyScalar.toStr : PyScalar → String
  | PyScalar.s v => v
  | PyScalar.i v => toString v

/-- A filter value: a scalar, or a list/tuple of scalars. -/
inductive FilterValue where
  | scalar : PyScalar → FilterValue
  | listv : List PyScalar → FilterValue

/-- One clause of `build_filter_string`: membership for list values,
equality otherwise. -/
def filterClause (field : String) (value : FilterValue) : String :=
  match value with
  | FilterValue.listv vs =>
      field ++ ":=[" ++ String.intercalate "," (vs.map PyScalar.toStr) ++ "]"
  | FilterValue.scalar v => field ++ ":=" ++ v.toStr

/-- `build_filter_string` from `search.py`: one clause per key in iteration
order, joined with `" && "`. -/
def build_filter_string (filters : List (String × FilterValue)) : String :=
  String.intercalate " && " (filters.map (fun p => filterClause p.1 p.2))

/-- The call-site guard shared by all three search strategies:
`if filters: params[str-filter-by] = build_filter_string(filters)` — an
absent (`None`) or empty mapping sends no filter clause at all. -/
def mkFilterBy (filters : Option (List (String × FilterValue))) : Option String :=
  match filters with
  | none => none
  | some fs => if fs.isEmpty then none else some (build_filter_string fs)

/-! ## Result normalizer (`search.py`, `TypesenseSearch._process_results`) -/

/-- A raw engine hit: the two keys the normalizer reads.  `vector_distance`
is `hit.get(str-vector-distance)` (absent key modelled as `none`);
`document` is the value under the `document` key when present. -/
structure Hit where
  vector_distance : Option Val
  document : Option Val

/-- The external `agno.document.Document` dataclass as the adapter uses it: a
plain record whose constructor performs no validation (in particular `id`
may be `None`; `content` is the only semantically required field).  Modelled
from the spec's Document data model, where `id` is "caller-assigned or
generated when absent". -/
structure AgnoDocument where
  id : Option Val
  content : Val
  meta_data : List (String × Val)
  embedding : Option Val

/-- The per-hit body of `_process_results`.  `doc = hit.get(str-document, empty-dict)`;
building the `Document` raises (hit skipped, `none`) exactly when `doc` is
not a mapping, since `doc.get` then raises `AttributeError` inside the
`try`.  A hit merely missing `id` constructs fine with `id = None`.  The
metadata dict display puts the reserved `vector_distance` key first and then
copies every document field other than `id`/`content`; the embedding is
decoded only when its raw value is truthy. -/
def normalizeHit (hit : Hit) : Option AgnoDocument :=
  let docv :=
    match hit.document with
    | some v => v
    | none => Val.obj []
  match docv with
  | Val.obj kvs =>
      some
        { id := lookupKey kvs "id"
          content :=
            match lookupKey kvs "content" with
            | some c => c
            | none => Val.str ""
          meta_data :=
            pyDict
              (("vector_distance",
                  match hit.vector_distance with
                  | some v => v
                  | none => Val.null)
                :: kvs.filter (fun kv => (kv.1 != "id") && (kv.1 != "content")))
          embedding :=
            match lookupKey kvs "embedding" with
            | some v => if v.truthy then some v else none
            | none => none }
  | _ => none

/-- The `results` argument of `_process_results`: a response dict whose
`hits` key may be absent. -/
structure SearchResults where
  hits : Option (List Hit)

/-- `_process_results`: iterate `results.get(str-hits, empty-list)`, skipping the
hits whose conversion raises. -/
def process_results (results : SearchResults) : List AgnoDocument :=
  (match results.hits with
   | some hs => hs
   | none => []).filterMap normalizeHit

/-! ## Search executor (`search.py`, `TypesenseSearch`) -/

/-- The `search_params` dict of `TypesenseSearch.keyword_search`. -/
structure KeywordParams where
  q : String
  query_by : String
  limit : Nat
  filter_by : Option String

/-- `search_params` as built by `keyword_search` (the `filter_by` key is set
only when `filters` is truthy). -/
def buildKeywordParams (query : String) (limit : Nat)
    (filters : Option (List (String × FilterValue))) : KeywordParams :=
  { q := query, query_by := "content", limit := limit, filter_by := mkFilterBy filters }

/-- One entry of a multi-search request (`searches[0]` in the source). -/
structure MultiQuery where
  q : String
  collection : String
  query_by : Option String
  vector_query : String
  limit : Nat
  filter_by : Option String

/-- The multi-search request body. -/
structure MultiSearchRequest where
  searches : List MultiQuery

/-- The multi-search response; the `results` key may be absent. -/
structure MultiSearchResponse where
  results : Option (List SearchResults)

/-- Comma-separated rendering of the query vector (`",".join(str(v) ...)`). -/
def vecStr (vec : List Int) : String :=
  String.intercalate "," (vec.map toString)

/-- `TypesenseSearch.keyword_search`: builds the params and calls
`collection.documents.search`.  There is no `try`/`except` here — a
transport error propagates out of the search executor. -/
def TypesenseSearch.keyword_search
    (searchFn : KeywordParams → Except String SearchResults)
    (query : String) (limit : Nat)
    (filters : Option (List (String × FilterValue))) :
    Except String (List AgnoDocument) :=
  match searchFn (buildKeywordParams query limit filters) with
  | Except.error e => Except.error e
  | Except.ok results => Except.ok (process_results results)

/-- Shared tail of the two multi-search strategies: Python checks
`results and results.get(str-results) and results[0].get(str-hits)` for
truthiness and otherwise returns the empty list. -/
def multiSearchHits (resp : MultiSearchResponse) : List AgnoDocument :=
  match resp.results with
  | some (r₀ :: _) =>
      match r₀.hits with
      | some hits => if hits.isEmpty then [] else process_results { hits := some hits }
      | none => []
  | _ => []

/-- `TypesenseSearch.vector_search`: whole body inside `try`/`except`, so a
transport or processing error yields the empty list. -/
def TypesenseSearch.vector_search
    (multiSearchFn : MultiSearchRequest → Except String MultiSearchResponse)
    (collectionName : String) (query_vector : List Int) (limit : Nat)
    (filters : Option (List (String × FilterValue))) : List AgnoDocument :=
  let req : MultiSearchRequest :=
    { searches :=
        [ { q := "*"
            collection := collectionName
            query_by := none
            vector_query := "embedding:([" ++ vecStr query_vector ++ "], k:" ++ toString limit ++ ")"
            limit := limit
            filter_by := mkFilterBy filters } ] }
  match multiSearchFn req with
  | Except.error _ => []
  | Except.ok resp => multiSearchHits resp

/-- `TypesenseSearch.hybrid_search`: like `vector_search` but with a lexical
`q`, `query_by = content`, and no `k:` bound in the vector clause; whole body
inside `try`/`except`. -/
def TypesenseSearch.hybrid_search
    (multiSearchFn : MultiSearchRequest → Except String MultiSearchResponse)
    (collectionName : String) (query : String) (query_vector : List Int) (limit : Nat)
    (filters : Option (List (String × FilterValue))) : List AgnoDocument :=
  let req : MultiSearchRequest :=
    { searches :=
        [ { q := query
            collection := collectionName
            query_by := some "content"
            vector_query := "embedding:([" ++ vecStr query_vector ++ "])"
            limit := limit
            filter_by := mkFilterBy filters } ] }
  match multiSearchFn req with
  | Except.error _ => []
  | Except.ok resp => multiSearchHits resp

/-! ## Adapter search layer (`__init__.py`, `TypesenseDb`)

Each `TypesenseDb` search method wraps its whole body in
`try ... except Exception: return []`.  The body first acquires the embedder
result and the lazily-constructed search handler (either may raise — modelled
as `Except` parameters) and then calls the corresponding executor method. -/

/-- `TypesenseDb.vector_search`: embed the query, acquire the handler, run
the executor; any exception is caught and the empty list returned. -/
def TypesenseDb.vector_search
    (handler : Except String Unit)
    (embed : String → Except String (List Int))
    (multiSearchFn : MultiSearchRequest → Except String MultiSearchResponse)
    (collectionName : String) (query : String) (limit : Nat)
    (filters : Option (List (String × FilterValue))) : List AgnoDocument :=
  match embed query with
  | Except.error _ => []
  | Except.ok qv =>
    match handler with
    | Except.error _ => []
    | Except.ok _ => TypesenseSearch.vector_search multiSearchFn collectionName qv limit filters

/-- `TypesenseDb.keyword_search`: acquire the handler and run the executor;
an exception from either (including the executor's un-caught transport
error) is caught here and the empty list returned. -/
def TypesenseDb.keyword_search
    (handler : Except String Unit)
    (searchFn : KeywordParams → Except String SearchResults)
    (query : String) (limit : Nat)
    (filters : Option (List (String × FilterValue))) : List AgnoDocument :=
  match handler with
  | Except.error _ => []
  | Except.ok _ =>
    match TypesenseSearch.keyword_search searchFn query limit filters with
    | Except.ok docs => docs
    | Except.error _ => []

/-- `TypesenseDb.hybrid_search`: embed the query, acquire the handler, run
the executor; any exception is caught and the empty list returned. -/
def TypesenseDb.hybrid_search
    (handler : Except String Unit)
    (embed : String → Except String (List Int))
    (multiSearchFn : MultiSearchRequest → Except String MultiSearchResponse)
    (collectionName : String) (query : String) (limit : Nat)
    (filters : Option (List (String × FilterValue))) : List AgnoDocument :=
  match embed query with
  | Except.error _ => []
  | Except.ok qv =>
    match handler with
    | Except.error _ => []
    | Except.ok _ => TypesenseSearch.hybrid_search multiSearchFn collectionName query qv limit filters

/-! ## Collection lifecycle (`__init__.py`: `exists`, `create`, `drop`,
`search_handler`)

The remote engine's administrative state is the list of existing collections
with their schemas.  A fallible engine call is modelled by an optional fault
injected at that call site (`none` = the call succeeds); a raised
`TypesenseClientError` is an `Except.error`. -/

/-- The remote engine's collection state. -/
structure EngineState where
  collections : List (String × Schema)

/-- `TypesenseDb.exists`: `retrieve` succeeds iff the collection is present
(`ObjectNotFound` is caught and returns `False`). -/
def collExists (eng : EngineState) (name : String) : Bool :=
  (eng.collections.find? (fun c => c.1 == name)).isSome

/-- The adapter-held state: the engine plus the lazily cached search handler
(`self._search`), modelled by the name of the collection it wraps. -/
structure DbState where
  engine : EngineState
  search_cache : Option String

/-- `TypesenseDb.create`: no-op when the collection exists; otherwise submit
the schema (a faulted engine call raises `TypesenseClientError`, which is
caught, logged and re-raised — i.e. propagated). -/
def TypesenseDb.create (createFault : Option String) (eng : EngineState)
    (schema : Schema) : Except String EngineState :=
  if collExists eng schema.name then Except.ok eng
  else
    match createFault with
    | some e => Except.error e
    | none => Except.ok { collections := eng.collections ++ [(schema.name, schema)] }

/-- `TypesenseDb.drop`: when the collection exists, delete it and reset
`self._search` to `None`; otherwise log and return normally.  A faulted
delete call is caught and re-raised. -/
def TypesenseDb.drop (deleteFault : Option String) (name : String)
    (st : DbState) : Except String DbState :=
  if collExists st.engine name then
    match deleteFault with
    | some e => Except.error e
    | none =>
        Except.ok
          { engine := { collections := st.engine.collections.filter (fun c => !(c.1 == name)) }
            search_cache := none }
  else Except.ok st

/-- The `search_handler` property: return the cached handler if present;
otherwise create the collection if absent, construct the handler
(`self.client.collections[self.name]`, modelled by the collection name) and
cache it.  A `TypesenseClientError` is logged and re-raised. -/
def TypesenseDb.search_handler (createFault : Option String) (name : String)
    (schema : Schema) (st : DbState) : Except String (String × DbState) :=
  match st.search_cache with
  | some h => Except.ok (h, st)
  | none =>
    match
      (if collExists st.engine name then Except.ok st.engine
       else TypesenseDb.create createFault st.engine schema) with
    | Except.error e => Except.error e
    | Except.ok eng =>
        Except.ok (name, { engine := eng, search_cache := some name })

/-! ## Ingestion (`__init__.py`, `TypesenseDb.insert`)

`insert` has two phases.  The preparation loop embeds and assembles each
document inside a `try` whose `except` clause logs and **re-raises**, so the
first preparation failure aborts the whole call.  The storage loop calls
`collection.documents.create` per prepared document inside a `try` whose
`except` records a per-document failure entry and continues. -/

/-- The caller-supplied `agno` document as `insert` uses it.  `meta_data` is
the dataclass's mapping field (so the `isinstance(meta_data, dict)` fallback
branch in the source is vacuous here); in-place mutation of `doc.embedding`
is modelled by returning the updated record. -/
structure InsertDoc where
  id : Option String
  content : String
  embedding : Option (List Int)
  meta_data : List (String × Val)

/-- The `doc_dict` payload submitted to `collection.documents.create`.  Its
embedding is a real vector: the preparation code evaluates
`len(embedding)` before building the dict, which raises on `None`. -/
structure DocDict where
  id : String
  content : String
  embedding : List Int
  meta_data : List (String × Val)

/-- One entry of the storage loop's `results` ledger. -/
structure InsertRecord where
  success : Bool
  document : String
  error : Option String

/-- Body of the preparation loop for one document (`insert`, first loop):
generate the embedding when it is absent and the content is truthy (the
embedder may raise); then `len(embedding)` — a `TypeError` when the
embedding is still `None`; then assemble the `doc_dict` (id generated when
absent).  Returns the payload and the (possibly mutated) caller document;
any error here is re-raised by the `except` clause. -/
def prepare_doc (embed : String → Except String (List Int)) (genId : String)
    (doc : InsertDoc) : Except String (DocDict × InsertDoc) :=
  match
    (if doc.embedding.isNone && !(doc.content == "") then
      match embed doc.content with
      | Except.error e => Except.error e
      | Except.ok emb => Except.ok { doc with embedding := some emb }
     else Except.ok doc) with
  | Except.error e => Except.error e
  | Except.ok doc₁ =>
    match doc₁.embedding with
    | none => Except.error "TypeError: object of type NoneType has no len()"
    | some emb =>
        Except.ok
          ({ id :=
              match doc₁.id with
              | some i => i
              | none => genId
             content := doc₁.content
             embedding := emb
             meta_data := doc₁.meta_data }, doc₁)

/-- The preparation loop over the whole batch: sequential, aborting at the
first failure (the source's `except` clause re-raises).  `genIds` supplies
the `uuid4` stream; `i` is the position of the next document. -/
def prepare_all (embed : String → Except String (List Int)) (genIds : Nat → String) :
    List InsertDoc → Nat → Except String (List DocDict × List InsertDoc)
  | [], _ => Except.ok ([], [])
  | d :: rest, i =>
    match prepare_doc embed (genIds i) d with
    | Except.error e => Except.error e
    | Except.ok (dd, d₁) =>
      match prepare_all embed genIds rest (i + 1) with
      | Except.error e => Except.error e
      | Except.ok (dds, ds) => Except.ok (dd :: dds, d₁ :: ds)

/-- The storage loop: one `collection.documents.create` per prepared
document, each inside its own `try`; a failure is recorded for that document
only and the loop continues. -/
def store_all (transportCreate : DocDict → Except String Unit)
    (dds : List DocDict) : List InsertRecord :=
  dds.map (fun dd =>
    match transportCreate dd with
    | Except.ok _ => { success := true, document := dd.id, error := none }
    | Except.error e => { success := false, document := dd.id, error := some e })

/-- `TypesenseDb.insert`: early return on an empty batch; ensure the
collection exists (a create failure propagates); run the preparation loop
(its first failure propagates, aborting the batch); then run the storage
loop over the prepared payloads, producing the per-document ledger.  The
returned `List InsertDoc` is the caller's document list after the in-place
mutations. -/
def TypesenseDb.insert (createFault : Option String)
    (embed : String → Except String (List Int)) (genIds : Nat → String)
    (transportCreate : DocDict → Except String Unit)
    (name : String) (schema : Schema) (st : DbState) (documents : List InsertDoc) :
    Except String (List InsertRecord × List InsertDoc × DbState) :=
  if documents.isEmpty then Except.ok ([], [], st)
  else
    match
      (if collExists st.engine name then Except.ok st.engine
       else TypesenseDb.create createFault st.engine schema) with
    | Except.error e => Except.error e
    | Except.ok eng =>
      match prepare_all embed genIds documents 0 with
      | Except.error e => Except.error e
      | Except.ok (dds, docs₁) =>
        if dds.isEmpty then Except.ok ([], docs₁, { st with engine := eng })
        else
          Except.ok (store_all transportCreate dds, docs₁, { st with engine := eng })

/-- Whether a hit's `document` value is a mapping (or absent, defaulting to
the empty dict) — the condition under which the normalizer's per-hit `try`
body cannot raise. -/
def hitDocMapping (h : Hit) : Bool :=
  match h.document with
  | none => true
  | some (Val.obj _) => true
  | some _ => false

/-! ## Helper lemmas -/

theorem lookupKey_dictUpdate (acc : List (String × Val)) (k₀ : String) (v₀ : Val)
    (k : String) :
    lookupKey (dictUpdate acc k₀ v₀) k = if k₀ == k then some v₀ else lookupKey acc k := by
  induction acc with
  | nil =>
    simp only [dictUpdate, lookupKey]
  | cons p rest ih =>
    obtain ⟨k₁, v₁⟩ := p
    simp only [dictUpdate]
    by_cases h : k₁ = k₀
    · subst h
      simp only [beq_self_eq_true, if_true, lookupKey]
      by_cases hk : k₁ = k
      · subst hk; simp
      · simp [hk, beq_iff_eq]
    · have hb : (k₁ == k₀) = false := by simp [beq_iff_eq, h]
      simp only [hb, Bool.false_eq_true, if_false, lookupKey]
      by_cases hk : k₁ = k
      · subst hk
        have hb₂ : (k₀ == k₁) = false := by
          simp [beq_iff_eq]; exact fun he => h he.symm
        simp [hb₂]
      · simp [beq_iff_eq, hk, ih]

theorem lookupKey_foldl_dictUpdate (pairs : List (String × Val)) :
    ∀ (acc : List (String × Val)) (k : String),
      lookupKey (pairs.foldl (fun d kv => dictUpdate d kv.1 kv.2) acc) k =
        (match lookupKeyLast pairs k with
         | some v => some v
         | none => lookupKey acc k) := by
  induction pairs with
  | nil =>
    intro acc k
    simp [lookupKeyLast]
  | cons p rest ih =>
    intro acc k
    obtain ⟨k₀, v₀⟩ := p
    simp only [List.foldl_cons]
    rw [ih]
    cases h : lookupKeyLast rest k with
    | some w => simp [lookupKeyLast, h]
    | none =>
      simp only [lookupKeyLast, h, lookupKey_dictUpdate]
      by_cases hk : k₀ == k <;> simp [hk]

theorem lookupKey_pyDict (pairs : List (String × Val)) (k : String) :
    lookupKey (pyDict pairs) k = lookupKeyLast pairs k := by
  rw [pyDict, lookupKey_foldl_dictUpdate]
  cases h : lookupKeyLast pairs k <;> simp [lookupKey]

theorem lookupKeyLast_eq_none_iff (l : List (String × Val)) (k : String) :
    lookupKeyLast l k = none ↔ lookupKey l k = none := by
  induction l with
  | nil => simp [lookupKeyLast, lookupKey]
  | cons p rest ih =>
    obtain ⟨k₀, v₀⟩ := p
    simp only [lookupKeyLast, lookupKey]
    cases h : lookupKeyLast rest k with
    | some w =>
      simp only []
      constructor
      · intro hc; exact absurd hc (by simp)
      · intro hc
        by_cases hk : k₀ == k
        · simp [hk] at hc
        · simp [hk] at hc
          rw [← ih] at hc
          rw [h] at hc
          exact absurd hc (by simp)
    | none =>
      have hr : lookupKey rest k = none := ih.mp h
      by_cases hk : k₀ == k
      · simp [hk]
      · simp [hk, hr]

theorem lookupKeyLast_of_nodup (l : List (String × Val)) (k : String)
    (h : keysNodup l = true) : lookupKeyLast l k = lookupKey l k := by
  induction l with
  | nil => rfl
  | cons p rest ih =>
    obtain ⟨k₀, v₀⟩ := p
    simp only [keysNodup, Bool.and_eq_true, Bool.not_eq_true'] at h
    obtain ⟨hany, hrest⟩ := h
    simp only [lookupKeyLast, lookupKey, ih hrest]
    by_cases hk : k₀ == k
    · have hkeq : k₀ = k := by rwa [beq_iff_eq] at hk
      subst hkeq
      cases hr : lookupKey rest k₀ with
      | none => simp [hk]
      | some w =>
        exfalso
        have : ∃ v, (k₀, v) ∈ rest := by
          clear hany hrest ih
          induction rest with
          | nil => simp [lookupKey] at hr
          | cons q qs ihq =>
            obtain ⟨k₁, v₁⟩ := q
            simp only [lookupKey] at hr
            by_cases h₁ : k₁ == k₀
            · exact ⟨v₁, by simp [beq_iff_eq.mp h₁]⟩
            · simp only [h₁, Bool.false_eq_true, if_false] at hr
              obtain ⟨v, hv⟩ := ihq hr
              exact ⟨v, List.mem_cons_of_mem _ hv⟩
        obtain ⟨v, hv⟩ := this
        have := List.any_eq_false.mp hany (k₀, v) hv
        simp at this
    · simp only [hk, Bool.false_eq_true, if_false]
      cases lookupKey rest k <;> rfl

theorem lookupKey_filter_some (l : List (String × Val)) (keyPred : String → Bool)
    (k : String) (v : Val) (hl : lookupKey l k = some v) (hp : keyPred k = true) :
    lookupKey (l.filter (fun kv => keyPred kv.1)) k = some v := by
  induction l with
  | nil => simp [lookupKey] at hl
  | cons p rest ih =>
    obtain ⟨k₀, v₀⟩ := p
    simp only [lookupKey] at hl
    by_cases hk : k₀ == k
    · have hkeq : k₀ = k := by rwa [beq_iff_eq] at hk
      subst hkeq
      simp only [hk, if_true] at hl
      simp [List.filter, hp, lookupKey, hl]
    · simp only [hk, Bool.false_eq_true, if_false] at hl
      by_cases hq : keyPred k₀
      · simp [List.filter, hq, lookupKey, hk, ih hl]
      · simp [List.filter, hq, ih hl]

theorem lookupKey_filter_none (l : List (String × Val)) (p : String × Val → Bool)
    (k : String) (hl : lookupKey l k = none) :
    lookupKey (l.filter p) k = none := by
  induction l with
  | nil => simp [lookupKey]
  | cons q rest ih =>
    obtain ⟨k₀, v₀⟩ := q
    simp only [lookupKey] at hl
    by_cases hk : k₀ == k
    · simp [hk] at hl
    · simp only [hk, Bool.false_eq_true, if_false] at hl
      by_cases hq : p (k₀, v₀)
      · simp [List.filter, hq, lookupKey, hk, ih hl]
      · simp [List.filter, hq, ih hl]

theorem keysNodup_filter (l : List (String × Val)) (p : String × Val → Bool)
    (h : keysNodup l = true) : keysNodup (l.filter p) = true := by
  induction l with
  | nil => simp [keysNodup]
  | cons q rest ih =>
    obtain ⟨k₀, v₀⟩ := q
    simp only [keysNodup, Bool.and_eq_true, Bool.not_eq_true'] at h
    obtain ⟨hany, hrest⟩ := h
    by_cases hq : p (k₀, v₀)
    · simp only [List.filter, hq, keysNodup, Bool.and_eq_true, Bool.not_eq_true']
      refine ⟨?_, ih hrest⟩
      apply List.any_eq_false.mpr
      intro kv hkv
      exact List.any_eq_false.mp hany kv (List.mem_of_mem_filter hkv)
    · simp only [List.filter, hq]
      exact ih hrest

theorem normalizeHit_isSome_of_mapping (h : Hit) (hm : hitDocMapping h = true) :
    (normalizeHit h).isSome = true := by
  obtain ⟨vd, doc⟩ := h
  cases doc with
  | none => rfl
  | some v =>
    cases v with
    | obj kvs => rfl
    | null => simp [hitDocMapping] at hm
    | str s => simp [hitDocMapping] at hm
    | int n => simp [hitDocMapping] at hm
    | arr vs => simp [hitDocMapping] at hm

theorem normalizeHit_eq_none_of_not_mapping (h : Hit) (hm : hitDocMapping h = false) :
    normalizeHit h = none := by
  obtain ⟨vd, doc⟩ := h
  cases doc with
  | none => simp [hitDocMapping] at hm
  | some v =>
    cases v with
    | obj kvs => simp [hitDocMapping] at hm
    | null => rfl
    | str s => rfl
    | int n => rfl
    | arr vs => rfl

theorem process_results_length_of_all_mapping (hits : List Hit)
    (h : hits.all hitDocMapping = true) :
    (process_results { hits := some hits }).length = hits.length := by
  induction hits with
  | nil => rfl
  | cons hd tl ih =>
    simp only [List.all_cons, Bool.and_eq_true] at h
    obtain ⟨h₁, h₂⟩ := h
    have hs := normalizeHit_isSome_of_mapping hd h₁
    obtain ⟨d, hd'⟩ := Option.isSome_iff_exists.mp hs
    have ihl := ih h₂
    simp only [process_results, List.filterMap_cons, hd'] at ihl ⊢
    simp [ihl]

theorem collExists_append_self (l : List (String × Schema)) (n : String) (s : Schema) :
    collExists ⟨l ++ [(n, s)]⟩ n = true := by
  induction l with
  | nil =>
    rw [List.nil_append, collExists, List.find?_cons_of_pos _ (by simp)]
    rfl
  | cons p rest ih =>
    obtain ⟨k₀, s₀⟩ := p
    show (List.find? (fun c => c.1 == n) ((k₀, s₀) :: (rest ++ [(n, s)]))).isSome = true
    by_cases h : (k₀ == n) = true
    · rw [show List.find? (fun c : String × Schema => c.1 == n) ((k₀, s₀) :: (rest ++ [(n, s)]))
            = some (k₀, s₀) from List.find?_cons_of_pos _ h]
      rfl
    · rw [List.find?_cons_of_neg _ (by simpa using h)]
      exact ih

theorem collExists_filter_self (l : List (String × Schema)) (n : String) :
    collExists ⟨l.filter (fun c => !(c.1 == n))⟩ n = false := by
  rw [collExists]
  cases hf : (l.filter (fun c => !(c.1 == n))).find? (fun c => c.1 == n) with
  | none => rfl
  | some x =>
    exfalso
    have hpx := List.find?_some hf
    have hxmem := List.mem_of_find?_eq_some hf
    have := (List.mem_filter.mp hxmem).2
    simp only [hpx] at this
    exact Bool.noConfusion this

theorem prepare_all_lengths (embed : String → Except String (List Int))
    (genIds : Nat → String) :
    ∀ (docs : List InsertDoc) (i : Nat) (dds : List DocDict) (docs₁ : List InsertDoc),
      prepare_all embed genIds docs i = Except.ok (dds, docs₁) →
      dds.length = docs.length ∧ docs₁.length = docs.length := by
  intro docs
  induction docs with
  | nil =>
    intro i dds docs₁ h
    simp only [prepare_all] at h
    cases h
    exact ⟨rfl, rfl⟩
  | cons d rest ih =>
    intro i dds docs₁ h
    simp only [prepare_all] at h
    cases hp : prepare_doc embed (genIds i) d with
    | error e => rw [hp] at h; cases h
    | ok pr =>
      obtain ⟨dd, d₁⟩ := pr
      rw [hp] at h
      cases hr : prepare_all embed genIds rest (i + 1) with
      | error e => rw [hr] at h; cases h
      | ok pr₂ =>
        obtain ⟨dds₀, ds₀⟩ := pr₂
        rw [hr] at h
        cases h
        obtain ⟨h₁, h₂⟩ := ih (i + 1) dds₀ ds₀ hr
        exact ⟨by simp [h₁], by simp [h₂]⟩

theorem prepare_doc_embeds (embed : String → Except String (List Int))
    (genId : String) (d : InsertDoc) (dd : DocDict) (d₁ : InsertDoc)
    (h : prepare_doc embed genId d = Except.ok (dd, d₁))
    (he : d.embedding = none) (hc : d.content ≠ "") :
    ∃ emb, embed d.content = Except.ok emb ∧ d₁.embedding = some emb := by
  have hcond : (d.embedding.isNone && !(d.content == "")) = true := by
    simp [he, Option.isNone, hc]
  rw [prepare_doc, hcond] at h
  simp only [if_true] at h
  cases hemb : embed d.content with
  | error e => rw [hemb] at h; cases h
  | ok emb =>
    rw [hemb] at h
    simp only [] at h
    cases h
    exact ⟨emb, rfl, rfl⟩

theorem prepare_all_embedding (embed : String → Except String (List Int))
    (genIds : Nat → String) :
    ∀ (docs : List InsertDoc) (i : Nat) (dds : List DocDict) (docs₁ : List InsertDoc),
      prepare_all embed genIds docs i = Except.ok (dds, docs₁) →
      ∀ (j : Nat) (hj : j < docs.length) (hj₁ : j < docs₁.length),
        (docs.get ⟨j, hj⟩).embedding = none → (docs.get ⟨j, hj⟩).content ≠ "" →
        ∃ emb, embed (docs.get ⟨j, hj⟩).content = Except.ok emb ∧
          (docs₁.get ⟨j, hj₁⟩).embedding = some emb := by
  intro docs
  induction docs with
  | nil =>
    intro i dds docs₁ h j hj
    exact absurd hj (by simp)
  | cons d rest ih =>
    intro i dds docs₁ h j hj hj₁ hemb hcont
    simp only [prepare_all] at h
    cases hp : prepare_doc embed (genIds i) d with
    | error e => rw [hp] at h; cases h
    | ok pr =>
      obtain ⟨dd, d₁⟩ := pr
      rw [hp] at h
      cases hr : prepare_all embed genIds rest (i + 1) with
      | error e => rw [hr] at h; cases h
      | ok pr₂ =>
        obtain ⟨dds₀, ds₀⟩ := pr₂
        rw [hr] at h
        cases h
        cases j with
        | zero =>
          simp only [List.get] at hemb hcont ⊢
          exact prepare_doc_embeds embed (genIds i) d dd d₁ hp hemb hcont
        | succ j₀ =>
          simp only [List.get] at hemb hcont ⊢
          exact ih (i + 1) dds₀ ds₀ hr j₀ (Nat.lt_of_succ_lt_succ hj)
            (Nat.lt_of_succ_lt_succ hj₁) hemb hcont

theorem pyDict_vd_lookup_self (x : Val) (l : List (String × Val))
    (h : lookupKey l "vector_distance" = none) :
    lookupKey (pyDict (("vector_distance", x) :: l)) "vector_distance" = some x := by
  rw [lookupKey_pyDict]
  have hlast : lookupKeyLast l "vector_distance" = none :=
    (lookupKeyLast_eq_none_iff _ _).mpr h
  simp [lookupKeyLast, hlast]

theorem pyDict_vd_lookup_other (x : Val) (l : List (String × Val)) (k : String) (v : Val)
    (hn : keysNodup l = true) (hk : lookupKey l k = some v) :
    lookupKey (pyDict (("vector_distance", x) :: l)) k = some v := by
  rw [lookupKey_pyDict]
  have hlast : lookupKeyLast l k = some v := by
    rw [lookupKeyLast_of_nodup _ _ hn]; exact hk
  simp [lookupKeyLast, hlast]

/-! ## Claim theorems -/

/-- C4 (code bug): a document with empty content and no embedding is meant to
skip embedding and be stored with a null embedding, but the preparation step
evaluates `len(embedding)` on `None` and raises a `TypeError`, aborting the
insert. -/
theorem c4_empty_content_null_embedding_bug :
    prepare_doc (fun _ => Except.ok [1, 2]) "generated-id"
      { id := some "a", content := "", embedding := none, meta_data := [] } =
      Except.error "TypeError: object of type NoneType has no len()" := rfl

/-- C6: for any valid descriptor (non-empty name, dimensionality `D > 0`),
`create_schema` emits exactly the four baseline fields — `id` string,
`content` string/text, `meta_data` object, and an embedding field of type
`float[]` with `num_dim` exactly `D` tagged with the chosen distance
metric — followed by the caller-supplied extra fields verbatim. -/
theorem c6_create_schema_baseline_fields (name : String) (D : Nat) (dist : Distance)
    (cfg : Option HNSWConfig) (extra : List SchemaField)
    (hname : name ≠ "") (hD : 0 < D) :
    ((create_schema name D dist cfg (some extra)).fields.map
        (fun f => (f.name, f.type))).take 4 =
      [("id", "string"), ("content", "string"), ("meta_data", "object"),
        ("embedding", "float[]")] ∧
    (create_schema name D dist cfg (some extra)).fields.drop 4 = extra ∧
    (∃ ef, (create_schema name D dist cfg (some extra)).fields.get? 3 = some ef ∧
      ef.name = "embedding" ∧ ef.type = "float[]" ∧ ef.num_dim = some D ∧
      ef.vec_dist = some dist.value) ∧
    (create_schema name D dist cfg (some extra)).name = name :=
  ⟨rfl, rfl, ⟨_, rfl, rfl, rfl, rfl, rfl⟩, rfl⟩

/-- Witness for C6 at a concrete valid descriptor. -/
theorem c6_witness :
    ((create_schema "docs" 3 Distance.cosine none (some [])).fields.map
        (fun f => (f.name, f.type))).take 4 =
      [("id", "string"), ("content", "string"), ("meta_data", "object"),
        ("embedding", "float[]")] ∧
    (create_schema "docs" 3 Distance.cosine none (some [])).fields.drop 4 = [] ∧
    (∃ ef, (create_schema "docs" 3 Distance.cosine none (some [])).fields.get? 3 = some ef ∧
      ef.name = "embedding" ∧ ef.type = "float[]" ∧ ef.num_dim = some 3 ∧
      ef.vec_dist = some Distance.cosine.value) ∧
    (create_schema "docs" 3 Distance.cosine none (some [])).name = "docs" :=
  c6_create_schema_baseline_fields "docs" 3 Distance.cosine none []
    (by decide) (by decide)

/-- C7: the filter compiler sends no filter clause for an absent or empty
mapping; a scalar value compiles to an equality clause, a list value to a
membership clause, and multiple keys are joined with logical AND in
iteration order; in particular the mapping with `a` scalar `1` and `b` list
`[2,3]` compiles to the conjunction of the two clauses. -/
theorem c7_compile_filters :
    mkFilterBy none = none ∧
    mkFilterBy (some []) = none ∧
    (∀ (p : String × FilterValue) (ps : List (String × FilterValue)),
      mkFilterBy (some (p :: ps)) =
        some (String.intercalate " && "
          ((p :: ps).map (fun q => filterClause q.1 q.2)))) ∧
    (∀ (f : String) (v : PyScalar),
      filterClause f (FilterValue.scalar v) = f ++ ":=" ++ v.toStr) ∧
    (∀ (f : String) (vs : List PyScalar),
      filterClause f (FilterValue.listv vs) =
        f ++ ":=[" ++ String.intercalate "," (vs.map PyScalar.toStr) ++ "]") ∧
    mkFilterBy (some [("a", FilterValue.scalar (PyScalar.i 1)),
        ("b", FilterValue.listv [PyScalar.i 2, PyScalar.i 3])]) =
      some "a:=1 && b:=[2,3]" :=
  ⟨rfl, rfl, fun _ _ => rfl, fun _ _ => rfl, fun _ _ => rfl, by decide⟩

/-- C2 (counterexample): a transport failure during `keyword_search` is not
caught at the search-executor layer — `TypesenseSearch.keyword_search`
propagates the error instead of returning an empty result. -/
theorem c2_keyword_error_escapes_executor :
    TypesenseSearch.keyword_search (fun _ => Except.error "transport failure")
      "q" 5 none = Except.error "transport failure" := rfl

/-- C2 (amended): errors during vector and hybrid search are caught at the
search-executor layer; a keyword-search error escapes the executor but is
caught one layer up in the adapter; in all three adapter-level operations a
transport error is converted into the empty result list and never thrown to
the caller. -/
theorem c2_search_errors_yield_empty :
    (∀ (handler : Except String Unit)
        (sFn : KeywordParams → Except String SearchResults)
        (q : String) (l : Nat) (f : Option (List (String × FilterValue))) (e : String),
      sFn (buildKeywordParams q l f) = Except.error e →
      TypesenseDb.keyword_search handler sFn q l f = []) ∧
    (∀ (handler : Except String Unit) (embed : String → Except String (List Int))
        (msFn : MultiSearchRequest → Except String MultiSearchResponse)
        (cn q : String) (l : Nat) (f : Option (List (String × FilterValue))) (e : String),
      (∀ r, msFn r = Except.error e) →
      TypesenseDb.vector_search handler embed msFn cn q l f = []) ∧
    (∀ (handler : Except String Unit) (embed : String → Except String (List Int))
        (msFn : MultiSearchRequest → Except String MultiSearchResponse)
        (cn q : String) (l : Nat) (f : Option (List (String × FilterValue))) (e : String),
      (∀ r, msFn r = Except.error e) →
      TypesenseDb.hybrid_search handler embed msFn cn q l f = []) ∧
    (∀ (msFn : MultiSearchRequest → Except String MultiSearchResponse)
        (cn : String) (qv : List Int) (l : Nat)
        (f : Option (List (String × FilterValue))) (e : String),
      (∀ r, msFn r = Except.error e) →
      TypesenseSearch.vector_search msFn cn qv l f = []) ∧
    (∀ (msFn : MultiSearchRequest → Except String MultiSearchResponse)
        (cn q : String) (qv : List Int) (l : Nat)
        (f : Option (List (String × FilterValue))) (e : String),
      (∀ r, msFn r = Except.error e) →
      TypesenseSearch.hybrid_search msFn cn q qv l f = []) := by
  refine ⟨?_, ?_, ?_, ?_, ?_⟩
  · intro handler sFn q l f e h
    cases handler with
    | error e₀ => rfl
    | ok u => simp [TypesenseDb.keyword_search, TypesenseSearch.keyword_search, h]
  · intro handler embed msFn cn q l f e hms
    simp only [TypesenseDb.vector_search]
    cases embed q with
    | error e₀ => rfl
    | ok qv =>
      cases handler with
      | error e₀ => rfl
      | ok u => simp [TypesenseSearch.vector_search, hms]
  · intro handler embed msFn cn q l f e hms
    simp only [TypesenseDb.hybrid_search]
    cases embed q with
    | error e₀ => rfl
    | ok qv =>
      cases handler with
      | error e₀ => rfl
      | ok u => simp [TypesenseSearch.hybrid_search, hms]
  · intro msFn cn qv l f e hms
    simp [TypesenseSearch.vector_search, hms]
  · intro msFn cn q qv l f e hms
    simp [TypesenseSearch.hybrid_search, hms]

/-- Witness for C2 (amended) at concrete failing transports. -/
theorem c2_witness :
    TypesenseDb.keyword_search (Except.ok ()) (fun _ => Except.error "down") "q" 5 none = [] ∧
    TypesenseDb.vector_search (Except.ok ()) (fun _ => Except.ok [1])
      (fun _ => Except.error "down") "docs" "q" 5 none = [] ∧
    TypesenseDb.hybrid_search (Except.ok ()) (fun _ => Except.ok [1])
      (fun _ => Except.error "down") "docs" "q" 5 none = [] ∧
    TypesenseSearch.vector_search (fun _ => Except.error "down") "docs" [1] 5 none = [] ∧
    TypesenseSearch.hybrid_search (fun _ => Except.error "down") "docs" "q" [1] 5 none = [] :=
  ⟨c2_search_errors_yield_empty.1 _ _ _ _ _ "down" rfl,
   c2_search_errors_yield_empty.2.1 _ _ _ _ _ _ _ "down" (fun _ => rfl),
   c2_search_errors_yield_empty.2.2.1 _ _ _ _ _ _ _ "down" (fun _ => rfl),
   c2_search_errors_yield_empty.2.2.2.1 _ _ _ _ _ "down" (fun _ => rfl),
   c2_search_errors_yield_empty.2.2.2.2 _ _ _ _ _ _ "down" (fun _ => rfl)⟩

/-- C3 (counterexample): `normalize` on a list with one well-formed hit and
one hit missing `id` returns two documents, not one — the missing-id hit is
not skipped, because constructing the Document with a null id does not
raise. -/
theorem c3_missing_id_hit_not_skipped :
    (process_results ⟨some
      [ ⟨some (Val.int 0), some (Val.obj [("id", Val.str "a"), ("content", Val.str "apple")])⟩
      , ⟨some (Val.int 0), some (Val.obj [("content", Val.str "orphan")])⟩ ]⟩).length ≠ 1 := by
  decide

/-- C3 (amended): a hit is skipped only when building its Document raises,
i.e. when its `document` payload is not a mapping; every hit whose payload
is a mapping (or absent) yields a document — in particular a hit merely
missing `id` is kept — and a raising hit is dropped without affecting the
rest of the batch, so the normalizer never fails as a whole. -/
theorem c3_normalizer_skips_only_raising_hits :
    (∀ h : Hit, hitDocMapping h = true → (normalizeHit h).isSome = true) ∧
    (∀ hits : List Hit, hits.all hitDocMapping = true →
      (process_results { hits := some hits }).length = hits.length) ∧
    (∀ (pre post : List Hit) (bad : Hit), hitDocMapping bad = false →
      process_results { hits := some (pre ++ bad :: post) } =
        process_results { hits := some pre } ++ process_results { hits := some post }) :=
  ⟨normalizeHit_isSome_of_mapping, process_results_length_of_all_mapping, by
    intro pre post bad hbad
    simp [process_results, List.filterMap_append, List.filterMap_cons,
      normalizeHit_eq_none_of_not_mapping bad hbad]⟩

/-- Witness for C3 (amended) at concrete hits, including one whose
`document` payload is not a mapping. -/
theorem c3_witness :
    (normalizeHit ⟨none, some (Val.obj [("content", Val.str "x")])⟩).isSome = true ∧
    (process_results ⟨some
      [ ⟨none, some (Val.obj [("id", Val.str "a")])⟩
      , ⟨none, some (Val.obj [("content", Val.str "x")])⟩ ]⟩).length =
      ([ ⟨none, some (Val.obj [("id", Val.str "a")])⟩
       , ⟨none, some (Val.obj [("content", Val.str "x")])⟩ ] : List Hit).length ∧
    process_results ⟨some
      ([ ⟨none, some (Val.obj [("id", Val.str "a")])⟩ ] ++
        ⟨none, some (Val.str "bad")⟩ ::
        [ ⟨none, some (Val.obj [])⟩ ])⟩ =
      process_results ⟨some [ ⟨none, some (Val.obj [("id", Val.str "a")])⟩ ]⟩ ++
      process_results ⟨some [ ⟨none, some (Val.obj [])⟩ ]⟩ :=
  ⟨c3_normalizer_skips_only_raising_hits.1 _ rfl,
   c3_normalizer_skips_only_raising_hits.2.1 _ rfl,
   c3_normalizer_skips_only_raising_hits.2.2 _ _ _ rfl⟩

/-- C9 (counterexample): for a hit with no `distance` value and a present but
empty `embedding` array, the normalizer still places the reserved
`vector_distance` key into metadata (holding null), and leaves the embedding
unset — contradicting "under a reserved key only when such a value is
present" and "decodes the embedding ... when present". -/
theorem c9_reserved_key_always_present :
    (normalizeHit ⟨none, some (Val.obj
        [("id", Val.str "a"), ("content", Val.str "body"), ("embedding", Val.arr [])])⟩).map
      (fun d => (lookupKey d.meta_data "vector_distance", d.embedding)) =
    some (some Val.null, none) := rfl

/-- C9 (amended): for every hit whose document payload is a mapping with
distinct keys not containing `vector_distance`, the normalizer always places
the reserved `vector_distance` key into metadata — holding the
engine-reported value when present and null otherwise; it copies every
remaining raw field except `id`/`content` into metadata unchanged; it
decodes the embedding when present and truthy (non-empty), leaving it unset
otherwise; and it extracts `id` from the raw document. -/
theorem c9_normalizer_field_mapping (vd : Option Val) (kvs : List (String × Val))
    (hn : keysNodup kvs = true)
    (hvd : lookupKey kvs "vector_distance" = none) :
    ∃ d, normalizeHit ⟨vd, some (Val.obj kvs)⟩ = some d ∧
      lookupKey d.meta_data "vector_distance" =
        some (match vd with
              | some v => v
              | none => Val.null) ∧
      (∀ (k : String) (v : Val), lookupKey kvs k = some v → k ≠ "id" → k ≠ "content" →
        lookupKey d.meta_data k = some v) ∧
      (∀ v : Val, lookupKey kvs "embedding" = some v →
        d.embedding = if v.truthy = true then some v else none) ∧
      (lookupKey kvs "embedding" = none → d.embedding = none) ∧
      d.id = lookupKey kvs "id" := by
  refine ⟨_, rfl, ?_, ?_, ?_, ?_, rfl⟩
  · exact pyDict_vd_lookup_self _ _ (lookupKey_filter_none _ _ _ hvd)
  · intro k v hkv hid hcont
    have hpred : ((fun s => (s != "id") && (s != "content")) k) = true := by
      simp [hid, hcont]
    have hk₁ := lookupKey_filter_some kvs
      (fun s => (s != "id") && (s != "content")) k v hkv hpred
    exact pyDict_vd_lookup_other _ _ _ _
      (keysNodup_filter _ _ hn) hk₁
  · intro v hv
    show (match lookupKey kvs "embedding" with
          | some w => if w.truthy then some w else none
          | none => none) = if v.truthy = true then some v else none
    rw [hv]
  · intro hnone
    show (match lookupKey kvs "embedding" with
          | some w => if w.truthy then some w else none
          | none => none) = none
    rw [hnone]

/-- Witness for C9 (amended) at a concrete hit carrying a distance value, an
extra engine field and a truthy embedding. -/
theorem c9_witness :
    ∃ d, normalizeHit ⟨some (Val.int 7), some (Val.obj
        [("id", Val.str "a"), ("content", Val.str "body"),
          ("embedding", Val.arr [Val.int 1]), ("extra_field", Val.int 5)])⟩ = some d ∧
      lookupKey d.meta_data "vector_distance" =
        some (match some (Val.int 7) with
              | some v => v
              | none => Val.null) ∧
      (∀ (k : String) (v : Val),
        lookupKey [("id", Val.str "a"), ("content", Val.str "body"),
            ("embedding", Val.arr [Val.int 1]), ("extra_field", Val.int 5)] k = some v →
        k ≠ "id" → k ≠ "content" → lookupKey d.meta_data k = some v) ∧
      (∀ v : Val,
        lookupKey [("id", Val.str "a"), ("content", Val.str "body"),
            ("embedding", Val.arr [Val.int 1]), ("extra_field", Val.int 5)] "embedding" = some v →
        d.embedding = if v.truthy = true then some v else none) ∧
      (lookupKey [("id", Val.str "a"), ("content", Val.str "body"),
          ("embedding", Val.arr [Val.int 1]), ("extra_field", Val.int 5)] "embedding" = none →
        d.embedding = none) ∧
      d.id = lookupKey [("id", Val.str "a"), ("content", Val.str "body"),
          ("embedding", Val.arr [Val.int 1]), ("extra_field", Val.int 5)] "id" :=
  c9_normalizer_field_mapping (some (Val.int 7))
    [("id", Val.str "a"), ("content", Val.str "body"),
      ("embedding", Val.arr [Val.int 1]), ("extra_field", Val.int 5)] rfl rfl

/-- C5: `create` is idempotent — it no-ops (no duplicate-collection error)
when the collection already exists, leaving the same observable state as a
single call; when the collection does not exist it submits the schema
payload; and a failing engine create call is propagated to the caller. -/
theorem c5_create_idempotent_and_propagates (eng : EngineState) (schema : Schema)
    (e : String) :
    (collExists eng schema.name = true →
      TypesenseDb.create none eng schema = Except.ok eng) ∧
    (∀ eng', TypesenseDb.create none eng schema = Except.ok eng' →
      TypesenseDb.create none eng' schema = Except.ok eng') ∧
    (collExists eng schema.name = false →
      TypesenseDb.create none eng schema =
        Except.ok { collections := eng.collections ++ [(schema.name, schema)] }) ∧
    (collExists eng schema.name = false →
      TypesenseDb.create (some e) eng schema = Except.error e) := by
  refine ⟨?_, ?_, ?_, ?_⟩
  · intro h
    simp [TypesenseDb.create, h]
  · intro eng' h
    cases hex : collExists eng schema.name with
    | true =>
      simp only [TypesenseDb.create, hex, if_true] at h
      cases h
      simp [TypesenseDb.create, hex]
    | false =>
      simp only [TypesenseDb.create, hex, Bool.false_eq_true, if_false] at h
      cases h
      simp [TypesenseDb.create, collExists_append_self]
  · intro h
    simp [TypesenseDb.create, h]
  · intro h
    simp [TypesenseDb.create, h]

/-- Witness for C5 at a concrete engine state and descriptor. -/
theorem c5_witness :
    TypesenseDb.create none
      ⟨[("docs", create_schema "docs" 3 Distance.cosine none none)]⟩
      (create_schema "docs" 3 Distance.cosine none none) =
      Except.ok ⟨[("docs", create_schema "docs" 3 Distance.cosine none none)]⟩ ∧
    TypesenseDb.create none ⟨[]⟩ (create_schema "docs" 3 Distance.cosine none none) =
      Except.ok ⟨[] ++ [((create_schema "docs" 3 Distance.cosine none none).name,
        create_schema "docs" 3 Distance.cosine none none)]⟩ ∧
    TypesenseDb.create (some "boom") ⟨[]⟩
      (create_schema "docs" 3 Distance.cosine none none) = Except.error "boom" :=
  ⟨(c5_create_idempotent_and_propagates _ _ "boom").1 rfl,
   (c5_create_idempotent_and_propagates _ _ "boom").2.2.1 rfl,
   (c5_create_idempotent_and_propagates _ _ "boom").2.2.2 rfl⟩

/-- C8: when the collection exists, `drop` deletes it and invalidates the
cached search-session handle (which is then reconstructed on next use by the
`search_handler` property); dropping a non-existent collection returns
success without any engine call, so it can never raise. -/
theorem c8_drop_invalidates_and_idempotent (fault : Option String) (name : String)
    (schema : Schema) (st : DbState) (hs : schema.name = name) :
    (collExists st.engine name = true →
      ∃ st₁, TypesenseDb.drop none name st = Except.ok st₁ ∧
        collExists st₁.engine name = false ∧ st₁.search_cache = none ∧
        ∃ st₂, TypesenseDb.search_handler none name schema st₁ = Except.ok (name, st₂) ∧
          st₂.search_cache = some name) ∧
    (collExists st.engine name = false → TypesenseDb.drop fault name st = Except.ok st) := by
  constructor
  · intro h
    subst hs
    have hd : TypesenseDb.drop none schema.name st =
        Except.ok ⟨⟨st.engine.collections.filter (fun c => !(c.1 == schema.name))⟩, none⟩ := by
      simp [TypesenseDb.drop, h]
    have hex : collExists (⟨st.engine.collections.filter (fun c => !(c.1 == schema.name))⟩ :
        EngineState) schema.name = false := collExists_filter_self _ _
    refine ⟨_, hd, hex, rfl, ?_⟩
    refine ⟨⟨⟨(st.engine.collections.filter (fun c => !(c.1 == schema.name))) ++
      [(schema.name, schema)]⟩, some schema.name⟩, ?_, rfl⟩
    simp [TypesenseDb.search_handler, TypesenseDb.create, hex]
  · intro h
    simp [TypesenseDb.drop, h]

/-- Witness for C8 at a concrete adapter state holding the collection and a
cached handle, and at a state without the collection. -/
theorem c8_witness :
    (∃ st₁, TypesenseDb.drop none "docs"
        ⟨⟨[("docs", create_schema "docs" 3 Distance.cosine none none)]⟩, some "docs"⟩ =
        Except.ok st₁ ∧
      collExists st₁.engine "docs" = false ∧ st₁.search_cache = none ∧
      ∃ st₂, TypesenseDb.search_handler none "docs"
          (create_schema "docs" 3 Distance.cosine none none) st₁ =
          Except.ok ("docs", st₂) ∧
        st₂.search_cache = some "docs") ∧
    TypesenseDb.drop (some "f") "docs" ⟨⟨[]⟩, none⟩ = Except.ok ⟨⟨[]⟩, none⟩ :=
  ⟨(c8_drop_invalidates_and_idempotent none "docs"
      (create_schema "docs" 3 Distance.cosine none none)
      ⟨⟨[("docs", create_schema "docs" 3 Distance.cosine none none)]⟩, some "docs"⟩ rfl).1 rfl,
   (c8_drop_invalidates_and_idempotent (some "f") "docs"
      (create_schema "docs" 3 Distance.cosine none none) ⟨⟨[]⟩, none⟩ rfl).2 rfl⟩

/-- C1 (counterexample): in a 3-document batch where embedding generation
fails for the second document, `insert` aborts with the embedding error —
the third document is never prepared or submitted and no per-document
ledger is produced. -/
theorem c1_embedding_failure_aborts_batch :
    TypesenseDb.insert none
      (fun s => if s == "doc two" then Except.error "embedding failed" else Except.ok [1, 0])
      (fun _ => "gen") (fun _ => Except.ok ()) "docs"
      (create_schema "docs" 2 Distance.cosine none none)
      ⟨⟨[("docs", create_schema "docs" 2 Distance.cosine none none)]⟩, none⟩
      [⟨some "a", "doc one", none, []⟩, ⟨some "b", "doc two", none, []⟩,
        ⟨some "c", "doc three", none, []⟩] = Except.error "embedding failed" := rfl

/-- C1 (amended): only the storage phase isolates failures per document —
when every document survives the preparation phase, `insert` succeeds, every
prepared document is submitted, and each ledger entry reflects exactly its
own document's transport outcome; a preparation-phase failure (e.g.
embedding generation) instead aborts the whole batch, as the counterexample
shows. -/
theorem c1_storage_failures_isolated (createFault : Option String)
    (embed : String → Except String (List Int)) (genIds : Nat → String)
    (tc : DocDict → Except String Unit) (name : String) (schema : Schema)
    (st : DbState) (docs : List InsertDoc) (dds : List DocDict) (docs₁ : List InsertDoc)
    (h₁ : docs ≠ []) (h₂ : collExists st.engine name = true)
    (h₃ : prepare_all embed genIds docs 0 = Except.ok (dds, docs₁)) :
    ∃ recs st', TypesenseDb.insert createFault embed genIds tc name schema st docs =
        Except.ok (recs, docs₁, st') ∧
      recs.length = docs.length ∧
      ∀ (i : Nat) (r : InsertRecord), recs.get? i = some r →
        ∃ dd, dds.get? i = some dd ∧ r.document = dd.id ∧
          (r.success = true ↔ tc dd = Except.ok ()) := by
  have hne : docs.isEmpty = false := by
    cases docs with
    | nil => exact absurd rfl h₁
    | cons d rest => rfl
  have hlen := (prepare_all_lengths embed genIds docs 0 dds docs₁ h₃).1
  have hddne : dds.isEmpty = false := by
    cases dds with
    | nil =>
      cases docs with
      | nil => exact absurd rfl h₁
      | cons d rest => simp at hlen
    | cons a b => rfl
  refine ⟨store_all tc dds, { st with engine := st.engine }, ?_, ?_, ?_⟩
  · simp [TypesenseDb.insert, hne, h₂, h₃, hddne]
  · rw [store_all, List.length_map, hlen]
  · intro i r hr
    rw [store_all, List.get?_map] at hr
    cases hdd : dds.get? i with
    | none => rw [hdd] at hr; cases hr
    | some dd =>
      rw [hdd, Option.map_some'] at hr
      cases hr
      refine ⟨dd, rfl, ?_, ?_⟩
      · cases htc : tc dd <;> simp [htc]
      · cases htc : tc dd with
        | ok u => cases u; simp [htc]
        | error e => simp [htc]

/-- Witness for C1 (amended): a 2-document batch whose second document fails
at the storage step still yields a full per-document ledger. -/
theorem c1_witness :
    ∃ recs st', TypesenseDb.insert none (fun _ => Except.ok []) (fun _ => "g")
        (fun dd => if dd.id == "b" then Except.error "409" else Except.ok ())
        "docs" (create_schema "docs" 3 Distance.cosine none none)
        ⟨⟨[("docs", create_schema "docs" 3 Distance.cosine none none)]⟩, none⟩
        [⟨some "a", "x", some [1], []⟩, ⟨some "b", "y", some [2], []⟩] =
        Except.ok (recs, [⟨some "a", "x", some [1], []⟩, ⟨some "b", "y", some [2], []⟩], st') ∧
      recs.length = 2 ∧
      ∀ (i : Nat) (r : InsertRecord), recs.get? i = some r →
        ∃ dd, ([⟨"a", "x", [1], []⟩, ⟨"b", "y", [2], []⟩] : List DocDict).get? i = some dd ∧
          r.document = dd.id ∧
          (r.success = true ↔
            (if dd.id == "b" then Except.error "409" else Except.ok ()) = Except.ok ()) :=
  c1_storage_failures_isolated none (fun _ => Except.ok []) (fun _ => "g")
    (fun dd => if dd.id == "b" then Except.error "409" else Except.ok ())
    "docs" (create_schema "docs" 3 Distance.cosine none none)
    ⟨⟨[("docs", create_schema "docs" 3 Distance.cosine none none)]⟩, none⟩
    [⟨some "a", "x", some [1], []⟩, ⟨some "b", "y", some [2], []⟩]
    [⟨"a", "x", [1], []⟩, ⟨"b", "y", [2], []⟩]
    [⟨some "a", "x", some [1], []⟩, ⟨some "b", "y", some [2], []⟩]
    (List.cons_ne_nil _ _) rfl rfl

/-- C10: `insert` mutates the caller-supplied documents in place — whenever
`insert` returns successfully, every caller document that lacked an
embedding and had non-empty content now carries the embedding the embedder
produced for its content. -/
theorem c10_insert_writes_back_embeddings (createFault : Option String)
    (embed : String → Except String (List Int)) (genIds : Nat → String)
    (tc : DocDict → Except String Unit) (name : String) (schema : Schema)
    (st : DbState) (docs : List InsertDoc) (recs : List InsertRecord)
    (docs₁ : List InsertDoc) (st' : DbState)
    (h : TypesenseDb.insert createFault embed genIds tc name schema st docs =
      Except.ok (recs, docs₁, st')) :
    docs₁.length = docs.length ∧
    ∀ (i : Nat) (hi : i < docs.length) (hi₁ : i < docs₁.length),
      (docs.get ⟨i, hi⟩).embedding = none → (docs.get ⟨i, hi⟩).content ≠ "" →
      ∃ emb, embed (docs.get ⟨i, hi⟩).content = Except.ok emb ∧
        (docs₁.get ⟨i, hi₁⟩).embedding = some emb := by
  cases hne : docs.isEmpty with
  | true =>
    have hdocs : docs = [] := by
      cases docs with
      | nil => rfl
      | cons d rest => simp at hne
    subst hdocs
    simp only [TypesenseDb.insert] at h
    simp only [List.isEmpty, if_true, Except.ok.injEq, Prod.mk.injEq] at h
    obtain ⟨hr, hd, hs⟩ := h
    subst hd
    exact ⟨rfl, fun i hi => absurd hi (Nat.not_lt_zero i)⟩
  | false =>
    simp only [TypesenseDb.insert, hne, Bool.false_eq_true, if_false] at h
    cases hE : (if collExists st.engine name then Except.ok st.engine
        else TypesenseDb.create createFault st.engine schema) with
    | error e =>
      rw [hE] at h
      exact Except.noConfusion h
    | ok eng =>
      rw [hE] at h
      cases hp : prepare_all embed genIds docs 0 with
      | error e =>
        rw [hp] at h
        exact Except.noConfusion h
      | ok p =>
        obtain ⟨dds, ds⟩ := p
        rw [hp] at h
        have hlen := (prepare_all_lengths embed genIds docs 0 dds ds hp).2
        have hemb := prepare_all_embedding embed genIds docs 0 dds ds hp
        cases hdd : dds.isEmpty with
        | true =>
          simp only [hdd, if_true, Except.ok.injEq, Prod.mk.injEq] at h
          obtain ⟨hr, hdocs₁, hst⟩ := h
          subst hdocs₁
          exact ⟨hlen, fun i hi hi₁ he hc => hemb i hi hi₁ he hc⟩
        | false =>
          simp only [hdd, Bool.false_eq_true, if_false, Except.ok.injEq, Prod.mk.injEq] at h
          obtain ⟨hr, hdocs₁, hst⟩ := h
          subst hdocs₁
          exact ⟨hlen, fun i hi hi₁ he hc => hemb i hi hi₁ he hc⟩

/-- Witness for C10 at a concrete successful insert whose single document
lacked an embedding. -/
theorem c10_witness :
    ([⟨some "a", "hello", some [7, 8], []⟩] : List InsertDoc).length =
      ([⟨some "a", "hello", none, []⟩] : List InsertDoc).length ∧
    ∀ (i : Nat) (hi : i < ([⟨some "a", "hello", none, []⟩] : List InsertDoc).length)
        (hi₁ : i < ([⟨some "a", "hello", some [7, 8], []⟩] : List InsertDoc).length),
      (([⟨some "a", "hello", none, []⟩] : List InsertDoc).get ⟨i, hi⟩).embedding = none →
      (([⟨some "a", "hello", none, []⟩] : List InsertDoc).get ⟨i, hi⟩).content ≠ "" →
      ∃ emb, (Except.ok [7, 8] : Except String (List Int)) = Except.ok emb ∧
        (([⟨some "a", "hello", some [7, 8], []⟩] : List InsertDoc).get ⟨i, hi₁⟩).embedding =
          some emb :=
  c10_insert_writes_back_embeddings none (fun _ => Except.ok [7, 8]) (fun _ => "g")
    (fun _ => Except.ok ()) "docs" (create_schema "docs" 2 Distance.cosine none none)
    ⟨⟨[("docs", create_schema "docs" 2 Distance.cosine none none)]⟩, none⟩
    [⟨some "a", "hello", none, []⟩]
    [⟨true, "a", none⟩]
    [⟨some "a", "hello", some [7, 8], []⟩]
    ⟨⟨[("docs", create_schema "docs" 2 Distance.cosine none none)]⟩, none⟩ rfl
